import Mathlib

/-!
Verification of the race-timer application `src/timer_app.py` (class `TimerApp`).

The development shallowly embeds the pure core of the program:
the serial-line decoder `_parse_serial_line`, the event handler
`_handle_serial_line`, the race reset `_start_race`, the clock-tick closure
inside `_start_race`, and the display formatter `_format_time`.

Strings are modelled as `List Char` (Lean `Char` is a Unicode scalar value,
matching Python's code-point strings).  The Python string primitives used by
the source (`strip`, `lstrip`, `upper`, `lower`, `startswith`, `split`,
`in`, `str.isdigit`, `int(...)`) are each given an explicit model below,
faithful on the character classes this program can encounter.
-/

namespace TimerApp

/-- Characters treated as whitespace by Python's `str.strip()` / `lstrip()`
with no argument (the ASCII whitespace class; other Unicode space characters
are not needed by any statement below). -/
def isPyWs (c : Char) : Bool :=
  c = ' ' || c = '\t' || c = '\n' || c = '\x0d' || c = '\x0b' || c = '\x0c'

/-- Drop leading characters satisfying `p` (Python `lstrip`, with the
character class given by `p`). -/
def lstripBy (p : Char → Bool) : List Char → List Char
  | [] => []
  | c :: rest => if p c then lstripBy p rest else c :: rest

/-- Python `s.strip()`: drop leading and trailing whitespace. -/
def stripChars (l : List Char) : List Char :=
  ((lstripBy isPyWs ((lstripBy isPyWs l.reverse)).reverse))

/-- Model of Python `str.isdigit` on the characters relevant here: the ASCII
digits and the superscript digits (U+2070, U+00B9, U+00B2, U+00B3,
U+2074-U+2079).  Python's `isdigit` is true for both classes, although
`int()` rejects the superscripts; other Unicode digit characters behave like
one of these two classes and are not needed below. -/
def pyIsDigit (c : Char) : Bool :=
  ('0' ≤ c && c ≤ '9') || c = '²' || c = '³' || c = '¹' || c = '⁰' ||
  ('⁴' ≤ c && c ≤ '⁹')

/-- Value of an ASCII decimal digit, `none` otherwise.  Python's `int()`
accepts exactly the decimal-digit characters (category Nd); of those only the
ASCII ones occur below.  The superscript digits are category No: `isdigit`
accepts them but `int()` raises `ValueError`. -/
def digitVal (c : Char) : Option Nat :=
  if '0' ≤ c && c ≤ '9' then some (c.toNat - 48) else none

/-- Accumulating digit evaluator for `int()`: digits with optional single
underscores between digits (Python allows `1_000`). -/
def digitsValAux : Nat → List Char → Option Nat
  | acc, [] => some acc
  | acc, '_' :: c :: rest =>
    match digitVal c with
    | some d => digitsValAux (acc * 10 + d) rest
    | none => none
  | _, ['_'] => none
  | acc, c :: rest =>
    match digitVal c with
    | some d => digitsValAux (acc * 10 + d) rest
    | none => none

/-- Nonempty digit run (with optional internal underscores), as `int()`
reads it after sign handling; `none` models `ValueError`. -/
def digitsVal : List Char → Option Nat
  | [] => none
  | '_' :: _ => none
  | c :: rest =>
    match digitVal c with
    | some d => digitsValAux d rest
    | none => none

/-- Model of Python `int(s)` on a string: optional surrounding whitespace,
optional single sign, then a nonempty digit run.  `none` models a raised
`ValueError`. -/
def pyIntChars (l : List Char) : Option Int :=
  match stripChars l with
  | '-' :: rest => (digitsVal rest).map (fun n => -(n : Int))
  | '+' :: rest => (digitsVal rest).map (fun n => (n : Int))
  | rest => (digitsVal rest).map (fun n => (n : Int))

/-- Python `needle in hay` (substring test). -/
def containsSub (needle : List Char) : List Char → Bool
  | [] => needle.isEmpty
  | c :: rest => needle.isPrefixOf (c :: rest) || containsSub needle rest

/-- Everything after the first occurrence of `c` (Python
`s.split(c, 1)[1]`, meaningful when `c` occurs in `s`). -/
def afterFirst (c : Char) : List Char → List Char
  | [] => []
  | x :: xs => if x = c then xs else afterFirst c xs

/-- Python `s.split(c)` for a one-character separator: split at every
occurrence, keeping empty pieces. -/
def pySplitChar (c : Char) : List Char → List (List Char)
  | [] => [[]]
  | x :: xs =>
    match pySplitChar c xs with
    | [] => [[]]
    | y :: ys => if x = c then [] :: y :: ys else (x :: y) :: ys

/-- Python `f"{n:02}"`: decimal representation, left-padded with `0` to
width 2 (a negative number of magnitude below 10 already has width 2, so it
is not padded, matching Python). -/
def pad2 (n : Int) : List Char :=
  let s := (toString n).data
  if s.length < 2 then '0' :: s else s

/-- `TimerApp._format_time` (timer_app.py:154-161): milliseconds to
`mm:ss.cc`.  Python `//` and `%` are floor division and modulus, i.e.
`Int.fdiv` / `Int.fmod`. -/
def formatTime (ms : Int) : String :=
  let seconds := Int.fdiv ms 1000
  let msRemainder := Int.fdiv (Int.fmod ms 1000) 10
  let mins := Int.fdiv seconds 60
  let secs := Int.fmod seconds 60
  String.mk (pad2 mins ++ ':' :: (pad2 secs ++ '.' :: pad2 msRemainder))

/-- Event kinds produced by `_parse_serial_line`: the Python `kind` field is
`'time' | 'stop' | 'dq' | 'final' | None`. -/
inductive PKind where
  | ktime
  | kstop
  | kdq
  | kfinal
  | knone
deriving Repr, DecidableEq

/-- Result tuple `(kind, value, lane_index)` of `_parse_serial_line`. -/
structure Parsed where
  kind : PKind
  value : Option Int
  lane : Option Int
deriving Repr, DecidableEq

/-- The `try:` block of `_parse_serial_line` (timer_app.py:186-199): split
the nonempty payload at `:`, require exactly three integer fields with
centiseconds in [0,99]; any failure (wrong field count, `int()` raising,
range violation) is caught and yields kind `None`. -/
def parseTimePayload (payload : List Char) (laneIndex : Option Int) : Parsed :=
  match pySplitChar ':' payload with
  | [mp, sp, cp] =>
    match pyIntChars mp, pyIntChars sp, pyIntChars cp with
    | some mins, some secs, some cs =>
      if 0 ≤ cs ∧ cs ≤ 99 then
        ⟨PKind.ktime, some ((mins * 60 + secs) * 1000 + cs * 10), laneIndex⟩
      else ⟨PKind.knone, none, laneIndex⟩
    | _, _, _ => ⟨PKind.knone, none, laneIndex⟩
  | _ => ⟨PKind.knone, none, laneIndex⟩

/-- Body of `_parse_serial_line` after the optional lane digit has been
consumed (timer_app.py:176-206): `raw` is the remainder, `laneIndex` the
0-based lane target if a digit was consumed. -/
def parseAfterLane (raw : List Char) (laneIndex : Option Int) : Parsed :=
  let token := raw.map Char.toUpper
  if "TIME:".data.isPrefixOf token || "TIME".data.isPrefixOf token then
    let payload0 := if raw.contains ':' then afterFirst ':' raw else raw.drop 4
    let payload := stripChars (lstripBy (fun c => c = ':') payload0)
    if payload.isEmpty then ⟨PKind.kstop, none, laneIndex⟩
    else parseTimePayload payload laneIndex
  else if "DISQUAL".data.isPrefixOf token || "DISQUALIFIED".data.isPrefixOf token then
    ⟨PKind.kdq, none, laneIndex⟩
  else if "FINAL".data.isPrefixOf token || "FINALTIME".data.isPrefixOf token then
    ⟨PKind.kfinal, none, laneIndex⟩
  else ⟨PKind.knone, none, laneIndex⟩

/-- `TimerApp._parse_serial_line` (timer_app.py:164-206).  The outer `none`
models an uncaught exception: when the first character passes `isdigit()`
but `int()` raises `ValueError` (superscript digits), the exception escapes
the function — nothing in it, or in its caller, catches it. -/
def parseSerialLine (line : String) : Option Parsed :=
  let raw0 := stripChars line.data
  match raw0 with
  | [] => some (parseAfterLane [] none)
  | c :: rest =>
    if pyIsDigit c then
      match pyIntChars [c] with
      | some n => some (parseAfterLane (lstripBy isPyWs rest) (some (n - 1)))
      | none => none
    else some (parseAfterLane (c :: rest) none)

/-- Per-lane mutable state, as the widgets hold it: `text_var` (the displayed
time string — the program stores the formatted text, not a millisecond
count), `stopped` (timer_app.py:43), `stopped_epoch` (timer_app.py:81, `-1`
means none) and `marker_var` (timer_app.py:49, initially a single space,
`"D"`/`"K"`/`""` afterwards). -/
structure LaneState where
  text : String
  stopped : Bool
  stoppedEpoch : Int
  marker : String
deriving Repr, DecidableEq

/-- The race state owned by the main thread: `lanes_count`, the lane list,
`race_epoch` (timer_app.py:103) and `race_running` (timer_app.py:105).
The dead fields (`history`, which is only ever cleared, and the GUI/serial
handles) are omitted. -/
structure AppState where
  lanesCount : Nat
  lanes : List LaneState
  raceEpoch : Int
  raceRunning : Bool
deriving Repr, DecidableEq

/-- A fresh lane as `Lane.__init__` plus `TimerApp.__init__` build it
(timer_app.py:23,34,43,49,81). -/
def initLane : LaneState :=
  ⟨formatTime 0, false, -1, " "⟩

/-- `TimerApp.__init__` state for `n` lanes (timer_app.py:64-118). -/
def initState (n : Nat) : AppState :=
  ⟨n, List.replicate n initLane, 0, false⟩

/-- One row handed to the results CSV: `(lane 1-based, time-or-D, marker)`
(timer_app.py:426-430). -/
def CsvRow := Nat × String × String
deriving Repr, DecidableEq

/-- The pre-reset snapshot row of one lane (timer_app.py:409-421,426-430):
the displayed text, the stripped marker, and `'D'` replacing the time when
the marker is `'D'`. -/
def snapshotRow (p : Nat × LaneState) : CsvRow :=
  let marker := String.mk (stripChars p.2.marker.data)
  (p.1 + 1, if marker = "D" then "D" else p.2.text, marker)

/-- The `any_data` test of `_start_race` (timer_app.py:408-421): some lane
shows a non-default time or has a (stripped) nonempty marker. -/
def anyLaneData (lanes : List LaneState) : Bool :=
  lanes.any (fun l => l.text != formatTime 0 || String.mk (stripChars l.marker.data) != "")

/-- The post-reset contents of every lane (timer_app.py:498-513). -/
def resetLane (l : LaneState) : LaneState :=
  { l with stopped := false, stoppedEpoch := -1, text := formatTime 0, marker := "" }

/-- `TimerApp._start_race` (timer_app.py:401-521): write the previous
snapshot to the results CSV when `any_data`, bump the epoch, mark the race
running, reset every lane.  The second component is the CSV data handed to
the result sink (`none` = no write; the constant header row is left
implicit). -/
def startRace (st : AppState) : AppState × Option (List CsvRow) :=
  let out := if anyLaneData st.lanes then some (st.lanes.enum.map snapshotRow) else none
  let st' := { st with
    raceEpoch := st.raceEpoch + 1,
    raceRunning := true,
    lanes := st.lanes.map resetLane }
  (st', out)

/-- List update at an index, leaving the list unchanged when out of range
(Python list assignment is only reached under an in-range guard). -/
def modifyLane : List LaneState → Nat → (LaneState → LaneState) → List LaneState
  | [], _, _ => []
  | l :: ls, 0, f => f l :: ls
  | l :: ls, n + 1, f => l :: modifyLane ls n f

/-- The guard `target_lane is not None and 0 <= target_lane < lanes_count`
(timer_app.py:297,327,340,349): the in-range 0-based lane, if any. -/
def inRangeLane (st : AppState) (lane : Option Int) : Option Nat :=
  match lane with
  | some t => if 0 ≤ t ∧ t < (st.lanesCount : Int) then some t.toNat else none
  | none => none

/-- The event-dispatch part of `TimerApp._handle_serial_line`
(timer_app.py:288-358), applied to an already-parsed tuple.  Events are
dropped while no race is running; `current_epoch` is read from the state at
application time (timer_app.py:292) — it is written into `stopped_epoch`
but never compared with anything.  For `'time'`, an in-range lane target
stops and sets that lane; any other lane value (absent or out of range)
falls into the broadcast branch (timer_app.py:313-324).  A `'time'` without
a value would raise inside the inner `try` of the text update, leaving the
text unchanged (unreachable from the parser). -/
def applyParsed (st : AppState) (p : Parsed) : AppState :=
  if !st.raceRunning then st
  else
    let currentEpoch := st.raceEpoch
    match p.kind with
    | PKind.ktime =>
      match inRangeLane st p.lane with
      | some i =>
        { st with lanes := modifyLane st.lanes i (fun l =>
            { l with stopped := true, stoppedEpoch := currentEpoch,
                     text := match p.value with
                             | some v => formatTime v
                             | none => l.text }) }
      | none =>
        { st with lanes := st.lanes.map (fun l =>
            if !l.stopped then
              { l with text := match p.value with
                               | some v => formatTime v
                               | none => l.text }
            else l) }
    | PKind.kstop =>
      match inRangeLane st p.lane with
      | some i =>
        { st with lanes := modifyLane st.lanes i (fun l =>
            { l with stopped := true, stoppedEpoch := currentEpoch }) }
      | none => st
    | PKind.kdq =>
      match inRangeLane st p.lane with
      | some i =>
        { st with lanes := modifyLane st.lanes i (fun l => { l with marker := "D" }) }
      | none => st
    | PKind.kfinal =>
      match inRangeLane st p.lane with
      | some i =>
        { st with lanes := modifyLane st.lanes i (fun l => { l with marker := "K" }) }
      | none => st
    | PKind.knone => st

/-- `TimerApp._handle_serial_line` (timer_app.py:259-358) on one raw line:
any line containing `start race` (case-insensitively) restarts the race;
otherwise the line is parsed and dispatched.  The outer `none` models the
`ValueError` escaping from `_parse_serial_line` (nothing in the handler
catches it); the `Option (List CsvRow)` component is the result-sink write
performed by a restart. -/
def handleSerialLine (st : AppState) (raw : String) : Option (AppState × Option (List CsvRow)) :=
  let rawStr := stripChars raw.data
  if containsSub "start race".data (rawStr.map Char.toLower) then
    some (startRace st)
  else
    match parseSerialLine (String.mk rawStr) with
    | none => none
    | some p => some (applyParsed st p, none)

/-- The `tick` closure scheduled by `_start_race` (timer_app.py:464-484):
while the race runs, write the formatted elapsed time into every unstopped
lane; `elapsedMs` stands for `int((now - self._race_start_time) * 1000)`. -/
def tick (st : AppState) (elapsedMs : Int) : AppState :=
  if !st.raceRunning then st
  else
    { st with lanes := st.lanes.map (fun l =>
        if !l.stopped then { l with text := formatTime elapsedMs } else l) }

/-- Checker for the display shape claimed in the spec: exactly two digit
characters, `':'`, two digits, `'.'`, two digits. -/
def twoDigitClockForm (s : String) : Bool :=
  match s.data with
  | [m1, m2, ':', s1, s2, '.', c1, c2] =>
    m1.isDigit && m2.isDigit && s1.isDigit && s2.isDigit && c1.isDigit && c2.isDigit
  | _ => false

/-! ### Helper lemmas -/

theorem lstripBy_of_forall_false (p : Char → Bool) :
    ∀ l : List Char, (∀ c ∈ l, p c = false) → lstripBy p l = l := by
  intro l h
  cases l with
  | nil => rfl
  | cons c rest =>
    unfold lstripBy
    rw [h c (List.mem_cons_self c rest)]
    simp

theorem lstripBy_subset (p : Char → Bool) :
    ∀ l : List Char, lstripBy p l ⊆ l := by
  intro l
  induction l with
  | nil => simp [lstripBy]
  | cons c rest ih =>
    unfold lstripBy
    by_cases hc : p c
    · simp only [hc, if_true]
      exact fun x hx => List.mem_cons_of_mem c (ih hx)
    · simp [hc]

theorem stripChars_subset (l : List Char) : stripChars l ⊆ l := by
  unfold stripChars
  intro x hx
  have h1 := lstripBy_subset isPyWs _ hx
  rw [List.mem_reverse] at h1
  have h2 := lstripBy_subset isPyWs _ h1
  rwa [List.mem_reverse] at h2

theorem pySplitChar_of_not_mem (c : Char) :
    ∀ l : List Char, c ∉ l → pySplitChar c l = [l] := by
  intro l h
  induction l with
  | nil => rfl
  | cons x rest ih =>
    have hx : ¬x = c := fun he => h (he ▸ List.mem_cons_self x rest)
    have hr : c ∉ rest := fun hm => h (List.mem_cons_of_mem x hm)
    unfold pySplitChar
    rw [ih hr]
    simp [hx]

theorem get?_modifyLane (f : LaneState → LaneState) :
    ∀ (ls : List LaneState) (i : Nat),
      (modifyLane ls i f).get? i = (ls.get? i).map f := by
  intro ls
  induction ls with
  | nil => intro i; cases i <;> rfl
  | cons l rest ih =>
    intro i
    cases i with
    | zero => rfl
    | succ n => simpa [modifyLane] using ih n

/-- Demo state used by several witnesses: six lanes just after the first
`Start Race` (epoch 1, running, all lanes reset). -/
def demo1 : AppState := (startRace (initState 6)).1

/-- Demo state where lane 0 has been stopped at 10 s by `1TIME:0:10:00`. -/
def demoStopped : AppState := applyParsed demo1 ⟨PKind.ktime, some 10000, some 0⟩

/-- Demo state where lane index 2 was stopped at `00:12.45` and then
finalized (marker `K`). -/
def demoFinal : AppState :=
  applyParsed (applyParsed demo1 ⟨PKind.ktime, some 12450, some 2⟩)
    ⟨PKind.kfinal, none, some 2⟩

/-! ### Claim theorems -/

/-- Claim C2 (code bug evaluation): the superscript-two character passes the
digit test that guards the lane selector, yet `int()` raises `ValueError` on
it, so `_parse_serial_line("²TIME")` raises instead of returning an
`Unrecognized` event — the decoder does not satisfy its never-fail
contract. -/
theorem C2_bug : pyIsDigit '²' = true ∧ parseSerialLine "²TIME" = none := by
  exact ⟨by decide, by decide⟩

/-- Claim C3 (counterexample): the line `1TIMEXYZ` — token starts with
`TIME`, contains no `:` — decodes to kind `None` (Unrecognized), not to the
`Stop` event the claim asserts: with no colon the payload is the non-empty
remainder `XYZ`, which fails the three-field parse. -/
theorem C3_cex :
    parseSerialLine "1TIMEXYZ" = some ⟨PKind.knone, none, some 0⟩ ∧
    parseSerialLine "1TIMEXYZ" ≠ some ⟨PKind.kstop, none, some 0⟩ := by
  exact ⟨by decide, by decide⟩

/-- Claim C1 (counterexample): a `Time` event with lane digit `0` decodes to
lane index `-1`, which is outside `[0, 5]`, yet applying it to the
post-start six-lane state is not a no-op: it falls into the broadcast
branch and sets every unstopped lane to `00:10.00`. -/
theorem C1_cex :
    parseSerialLine "0TIME:0:10:00" = some ⟨PKind.ktime, some 10000, some (-1)⟩ ∧
    handleSerialLine demo1 "0TIME:0:10:00" ≠ some (demo1, none) ∧
    handleSerialLine demo1 "0TIME:0:10:00" =
      some ({ demo1 with lanes := List.replicate 6 ⟨"00:10.00", false, -1, ""⟩ }, none) := by
  exact ⟨by decide, by decide, by decide⟩

/-- Claim C4 (code bug evaluation): the handler reads `race_epoch` only at
application time and never compares it with anything, so a line read during
epoch 1 but dispatched after a second `Start Race` (epoch 2) is applied to
the fresh race — lane 0 becomes stopped at `00:10.00` with
`stopped_epoch = 2` — instead of being dropped as stale.  The state below is
the one after two consecutive restarts. -/
theorem C4_bug :
    handleSerialLine (startRace demo1).1 "1TIME:0:10:00" ≠ some ((startRace demo1).1, none) ∧
    (handleSerialLine (startRace demo1).1 "1TIME:0:10:00").map (fun r => r.1.lanes.head?) =
      some (some ⟨"00:10.00", true, 2, ""⟩) := by
  exact ⟨by decide, by decide⟩

/-- Claim C5 (counterexample): lane 0 is stopped at `00:10.00`; a later
targeted `Time` event in the same epoch overwrites the stopped lane's
displayed time with the smaller value `00:05.00` — the displayed elapsed
time of a stopped lane is neither frozen nor monotonic under targeted
`Time` events. -/
theorem C5_cex :
    demoStopped.lanes.head? = some ⟨"00:10.00", true, 1, ""⟩ ∧
    (applyParsed demoStopped ⟨PKind.ktime, some 5000, some 0⟩).lanes.head? =
      some ⟨"00:05.00", true, 1, ""⟩ := by
  exact ⟨by decide, by decide⟩

/-- Claim C9 (counterexample): at 100 minutes the formatter emits a
three-digit minute field — `f"{mins:02}"` is a minimum width, not an exact
one — so the output is not of the claimed `mm:ss.cc` two-digit shape. -/
theorem C9_cex :
    formatTime 6000000 = "100:00.00" ∧
    twoDigitClockForm (formatTime 6000000) = false := by
  exact ⟨by decide, by decide⟩

/-- Claim C1 (amended): an out-of-range lane digit is dropped silently for
`Stop`, `Disqualify` and `Finalize` events, but an out-of-range `Time`
event is not dropped — it behaves exactly like a broadcast `Time` and is
applied to every unstopped lane. -/
theorem C1_amended (st : AppState) (i : Int)
    (hout : i < 0 ∨ (st.lanesCount : Int) ≤ i) :
    (∀ v, applyParsed st ⟨PKind.ktime, v, some i⟩ = applyParsed st ⟨PKind.ktime, v, none⟩) ∧
    applyParsed st ⟨PKind.kstop, none, some i⟩ = st ∧
    applyParsed st ⟨PKind.kdq, none, some i⟩ = st ∧
    applyParsed st ⟨PKind.kfinal, none, some i⟩ = st := by
  have hr : inRangeLane st (some i) = none := by
    simp only [inRangeLane]
    rw [if_neg (by omega)]
  have hn : inRangeLane st none = none := rfl
  refine ⟨fun v => ?_, ?_, ?_, ?_⟩ <;>
    simp only [applyParsed, hr, hn, ite_self]

/-- Claim C1 witness: the amended statement at the six-lane post-start
state with lane index `-1`. -/
theorem C1_amended_w :
    applyParsed demo1 ⟨PKind.ktime, some 10000, some (-1)⟩ =
      applyParsed demo1 ⟨PKind.ktime, some 10000, none⟩ ∧
    applyParsed demo1 ⟨PKind.kstop, none, some (-1)⟩ = demo1 ∧
    applyParsed demo1 ⟨PKind.kdq, none, some (-1)⟩ = demo1 ∧
    applyParsed demo1 ⟨PKind.kfinal, none, some (-1)⟩ = demo1 := by
  have h := C1_amended demo1 (-1) (Or.inl (by decide))
  exact ⟨h.1 (some 10000), h.2.1, h.2.2.1, h.2.2.2⟩

/-- Claim C7: a broadcast `Time` event (no lane target) applied while the
race runs sets the displayed time of every unstopped lane to the event's
value and leaves every stopped lane completely untouched (all four
fields). -/
theorem C7_broadcast (st : AppState) (v : Int) (hr : st.raceRunning = true)
    (i : Nat) (l : LaneState) (hl : st.lanes.get? i = some l) :
    (applyParsed st ⟨PKind.ktime, some v, none⟩).lanes.get? i =
      some (if l.stopped then l else { l with text := formatTime v }) := by
  simp only [applyParsed, hr, Bool.not_true, Bool.false_eq_true, if_false]
  have hn : inRangeLane st none = none := rfl
  rw [hn]
  show (st.lanes.map _).get? i = _
  rw [List.get?_map, hl]
  cases hs : l.stopped <;> simp [hs]

/-- Claim C7 witness: broadcasting `00:20.00` over the state where lane 0
is stopped at `00:10.00` leaves lane 0 untouched and sets lane 1. -/
theorem C7_broadcast_w :
    (applyParsed demoStopped ⟨PKind.ktime, some 20000, none⟩).lanes.get? 0 =
      some ⟨"00:10.00", true, 1, ""⟩ ∧
    (applyParsed demoStopped ⟨PKind.ktime, some 20000, none⟩).lanes.get? 1 =
      some ⟨"00:20.00", false, -1, ""⟩ := by
  have h0 := C7_broadcast demoStopped 20000 (by decide) 0 ⟨"00:10.00", true, 1, ""⟩ (by decide)
  have h1 := C7_broadcast demoStopped 20000 (by decide) 1 ⟨"00:00.00", false, -1, ""⟩ (by decide)
  exact ⟨h0.trans (by decide), h1.trans (by decide)⟩

/-- Claim C10: within a running race, `Disqualify` on an in-range lane sets
its marker to `D` and `Finalize` sets it to `K`, whatever the current
marker is — in particular a finalized lane is overwritten to `D` and a
disqualified lane to `K`: last write wins in both directions. -/
theorem C10_marker (st : AppState) (i : Nat) (l : LaneState)
    (hr : st.raceRunning = true) (hl : st.lanes.get? i = some l)
    (hi : (i : Int) < (st.lanesCount : Int)) :
    (applyParsed st ⟨PKind.kdq, none, some (i : Int)⟩).lanes.get? i =
      some { l with marker := "D" } ∧
    (applyParsed st ⟨PKind.kfinal, none, some (i : Int)⟩).lanes.get? i =
      some { l with marker := "K" } := by
  have hin : inRangeLane st (some (i : Int)) = some i := by
    simp only [inRangeLane]
    rw [if_pos ⟨Int.natCast_nonneg i, hi⟩, Int.toNat_natCast]
  constructor <;>
    · simp only [applyParsed, hr, Bool.not_true, Bool.false_eq_true, if_false, hin]
      rw [get?_modifyLane, hl]
      rfl

/-- Claim C10 witness: lane 0 marked `K` is overwritten to `D`, and lane 1
marked `D` is overwritten to `K`. -/
theorem C10_marker_w :
    (applyParsed (applyParsed demo1 ⟨PKind.kfinal, none, some 0⟩)
        ⟨PKind.kdq, none, some 0⟩).lanes.get? 0 =
      some ⟨"00:00.00", false, -1, "D"⟩ ∧
    (applyParsed (applyParsed demo1 ⟨PKind.kdq, none, some 1⟩)
        ⟨PKind.kfinal, none, some 1⟩).lanes.get? 1 =
      some ⟨"00:00.00", false, -1, "K"⟩ := by
  have hd := C10_marker (applyParsed demo1 ⟨PKind.kfinal, none, some 0⟩) 0
    ⟨"00:00.00", false, -1, "K"⟩ (by decide) (by decide) (by decide)
  have hk := C10_marker (applyParsed demo1 ⟨PKind.kdq, none, some 1⟩) 1
    ⟨"00:00.00", false, -1, "D"⟩ (by decide) (by decide) (by decide)
  exact ⟨hd.1.trans (by decide), hk.2.trans (by decide)⟩

/-- Claim C5 (amended): once a lane is stopped, clock ticks and broadcast
`Time` events leave it completely untouched — its displayed time is frozen
against those — but a targeted in-range `Time` event to that lane always
overwrites it (stops it again and sets the displayed time to the event's
value), so the displayed time is not frozen, nor monotonic, under targeted
`Time` events. -/
theorem C5_amended (st : AppState) (i : Nat) (l : LaneState)
    (hl : st.lanes.get? i = some l) (hs : l.stopped = true) :
    (∀ e, (tick st e).lanes.get? i = some l) ∧
    (∀ v, (applyParsed st ⟨PKind.ktime, v, none⟩).lanes.get? i = some l) ∧
    (st.raceRunning = true → (i : Int) < (st.lanesCount : Int) → ∀ v,
      (applyParsed st ⟨PKind.ktime, some v, some (i : Int)⟩).lanes.get? i =
        some { l with stopped := true, stoppedEpoch := st.raceEpoch,
                      text := formatTime v }) := by
  refine ⟨fun e => ?_, fun v => ?_, fun hr hi v => ?_⟩
  · unfold tick
    cases hrun : (!st.raceRunning)
    · simp only [Bool.false_eq_true, if_false]
      show (st.lanes.map _).get? i = some l
      rw [List.get?_map, hl]
      simp [hs]
    · rw [if_pos rfl]
      exact hl
  · simp only [applyParsed]
    cases hrun : (!st.raceRunning)
    · have hn : inRangeLane st none = none := rfl
      simp only [Bool.false_eq_true, if_false, hn]
      show (st.lanes.map _).get? i = some l
      rw [List.get?_map, hl]
      simp [hs]
    · rw [if_pos rfl]
      exact hl
  · have hin : inRangeLane st (some (i : Int)) = some i := by
      simp only [inRangeLane]
      rw [if_pos ⟨Int.natCast_nonneg i, hi⟩, Int.toNat_natCast]
    simp only [applyParsed, hr, Bool.not_true, Bool.false_eq_true, if_false, hin]
    rw [get?_modifyLane, hl]
    rfl

/-- Claim C5 witness: with lane 0 stopped at `00:10.00`, a tick at 7 s and
a broadcast `Time` of 20 s leave it untouched, while a targeted `Time` of
5 s overwrites it to `00:05.00`. -/
theorem C5_amended_w :
    (tick demoStopped 7000).lanes.get? 0 = some ⟨"00:10.00", true, 1, ""⟩ ∧
    (applyParsed demoStopped ⟨PKind.ktime, some 20000, none⟩).lanes.get? 0 =
      some ⟨"00:10.00", true, 1, ""⟩ ∧
    (applyParsed demoStopped ⟨PKind.ktime, some 5000, some 0⟩).lanes.get? 0 =
      some ⟨"00:05.00", true, 1, ""⟩ := by
  have h := C5_amended demoStopped 0 ⟨"00:10.00", true, 1, ""⟩ (by decide) rfl
  exact ⟨h.1 7000, h.2.1 (some 20000), (h.2.2 (by decide) (by decide) 5000).trans (by decide)⟩

/-- Claim C6: starting a race increments the epoch by exactly one, marks
the race running, resets every lane to zero time, not stopped, no stopped
epoch and no marker; the result sink is handed data exactly when some lane
shows a non-default time or carries a marker, and what it is handed is the
snapshot of the pre-reset lanes; no other event kind ever changes the
epoch. -/
theorem C6_startRace (st : AppState) :
    (startRace st).1.raceEpoch = st.raceEpoch + 1 ∧
    (startRace st).1.raceRunning = true ∧
    (startRace st).1.lanes = List.replicate st.lanes.length ⟨formatTime 0, false, -1, ""⟩ ∧
    ((startRace st).2 ≠ none ↔
      ∃ l ∈ st.lanes, l.text ≠ formatTime 0 ∨ String.mk (stripChars l.marker.data) ≠ "") ∧
    ((startRace st).2 = none ∨ (startRace st).2 = some (st.lanes.enum.map snapshotRow)) ∧
    (∀ p, (applyParsed st p).raceEpoch = st.raceEpoch) := by
  refine ⟨rfl, rfl, ?_, ?_, ?_, ?_⟩
  · show st.lanes.map resetLane = _
    have : resetLane = fun _ => (⟨formatTime 0, false, -1, ""⟩ : LaneState) := rfl
    rw [this]
    induction st.lanes with
    | nil => rfl
    | cons a tl ih => simp [ih, List.replicate_succ]
  · show (if anyLaneData st.lanes then some (st.lanes.enum.map snapshotRow) else none) ≠ none ↔ _
    cases hd : anyLaneData st.lanes
    · simp only [Bool.false_eq_true, if_false]
      unfold anyLaneData at hd
      rw [List.any_eq_false] at hd
      constructor
      · intro hne
        exact absurd rfl hne
      · rintro ⟨l, hlm, hp⟩
        have h2 := hd l hlm
        simp only [Bool.or_eq_true, bne_iff_ne, ne_eq, not_or, not_not] at h2
        rcases hp with hp | hp
        · exact absurd h2.1 hp
        · exact absurd h2.2 hp
    · simp only [if_true]
      unfold anyLaneData at hd
      rw [List.any_eq_true] at hd
      obtain ⟨l, hlm, hp⟩ := hd
      simp only [Bool.or_eq_true, bne_iff_ne, ne_eq] at hp
      exact ⟨fun _ => ⟨l, hlm, hp⟩, fun _ => by simp⟩
  · show (if anyLaneData st.lanes then some (st.lanes.enum.map snapshotRow) else none) = none ∨
        (if anyLaneData st.lanes then some (st.lanes.enum.map snapshotRow) else none) =
          some (st.lanes.enum.map snapshotRow)
    cases anyLaneData st.lanes
    · exact Or.inl rfl
    · exact Or.inr rfl
  · intro p
    rcases p with ⟨k, v, ln⟩
    cases k <;>
      · simp only [applyParsed]
        cases (!st.raceRunning) <;> cases hln : inRangeLane st ln <;> simp [hln]

/-- Claim C6 witness: the demo state with lane 2 stopped at `00:12.45` and
finalized; restarting bumps the epoch from 1 to 2, resets the lanes and
hands the sink the pre-reset snapshot. -/
theorem C6_startRace_w :
    (startRace demoFinal).1.raceEpoch = demoFinal.raceEpoch + 1 ∧
    (startRace demoFinal).1.raceRunning = true ∧
    (startRace demoFinal).1.lanes =
      List.replicate demoFinal.lanes.length ⟨formatTime 0, false, -1, ""⟩ ∧
    (startRace demoFinal).2 ≠ none ∧
    (startRace demoFinal).2 = some (demoFinal.lanes.enum.map snapshotRow) ∧
    (applyParsed demoFinal ⟨PKind.kstop, none, some 0⟩).raceEpoch = demoFinal.raceEpoch := by
  have h := C6_startRace demoFinal
  refine ⟨h.1, h.2.1, h.2.2.1, ?_, ?_, h.2.2.2.2.2 ⟨PKind.kstop, none, some 0⟩⟩
  · exact h.2.2.2.1.mpr ⟨⟨"00:12.45", true, 1, "K"⟩, by decide, Or.inl (by decide)⟩
  · have := h.2.2.2.2.1
    rcases this with hnone | hsome
    · exact absurd hnone (h.2.2.2.1.mpr ⟨⟨"00:12.45", true, 1, "K"⟩, by decide, Or.inl (by decide)⟩)
    · exact hsome

/-- Claim C3 (amended): for a remainder whose uppercased token starts with
`TIME` and which contains no `:`, the payload is the remainder after the
four `TIME` characters (stripped), not always empty: the decode is `Stop`
exactly when that remainder is blank, and `Unrecognized` otherwise (the
non-empty colon-free payload fails the three-field parse). -/
theorem C3_amended (raw : List Char) (lane : Option Int)
    (ht : "TIME".data.isPrefixOf (raw.map Char.toUpper) = true)
    (hc : raw.contains ':' = false) :
    parseAfterLane raw lane =
      if (stripChars (raw.drop 4)).isEmpty then (⟨PKind.kstop, none, lane⟩ : Parsed)
      else ⟨PKind.knone, none, lane⟩ := by
  have hmem : ':' ∉ raw := by simpa using hc
  have hmemd : ':' ∉ raw.drop 4 := fun hm => hmem (List.drop_subset 4 raw hm)
  have hlst : lstripBy (fun c => c = ':') (raw.drop 4) = raw.drop 4 := by
    apply lstripBy_of_forall_false
    intro c hcm
    simp only [decide_eq_false_iff_not]
    intro hce
    exact hmemd (hce ▸ hcm)
  have hmems : ':' ∉ stripChars (raw.drop 4) := fun hm => hmemd (stripChars_subset _ hm)
  unfold parseAfterLane
  rw [if_pos (by rw [ht]; simp)]
  simp only [hc, Bool.false_eq_true, if_false]
  rw [hlst]
  cases he : (stripChars (raw.drop 4)).isEmpty
  · simp only [Bool.false_eq_true, if_false]
    unfold parseTimePayload
    rw [pySplitChar_of_not_mem ':' _ hmems]
  · simp only [if_true]

/-- Claim C3 witness: the amended statement evaluated on the remainder
`TIMEXYZ` with lane 0 — the payload `XYZ` is non-empty, so the result is
`Unrecognized`, not `Stop`. -/
theorem C3_amended_w :
    parseAfterLane "TIMEXYZ".data (some 0) = ⟨PKind.knone, none, some 0⟩ := by
  have h := C3_amended "TIMEXYZ".data (some 0) (by decide) (by decide)
  exact h.trans (by decide)

/-- Claim C8: a nonempty `TIME` payload that splits at `:` into exactly
three integer fields with centiseconds in `[0, 99]` parses to a `Time`
event of `(m*60+ss)*1000 + cc*10` milliseconds; centiseconds out of range,
a field count other than three, or a non-integer field all yield
`Unrecognized`; concretely `TIME:1:05:30` decodes to 65300 ms and
`TIME:1:5` to `Unrecognized`. -/
theorem C8_timeParse (payload : List Char) (lane : Option Int) :
    (∀ mp sp cp mins secs cs, pySplitChar ':' payload = [mp, sp, cp] →
      pyIntChars mp = some mins → pyIntChars sp = some secs → pyIntChars cp = some cs →
      ((0 ≤ cs ∧ cs ≤ 99 →
          parseTimePayload payload lane =
            ⟨PKind.ktime, some ((mins * 60 + secs) * 1000 + cs * 10), lane⟩) ∧
        (¬(0 ≤ cs ∧ cs ≤ 99) →
          parseTimePayload payload lane = ⟨PKind.knone, none, lane⟩))) ∧
    ((pySplitChar ':' payload).length ≠ 3 →
      parseTimePayload payload lane = ⟨PKind.knone, none, lane⟩) ∧
    (∀ mp sp cp, pySplitChar ':' payload = [mp, sp, cp] →
      pyIntChars mp = none ∨ pyIntChars sp = none ∨ pyIntChars cp = none →
      parseTimePayload payload lane = ⟨PKind.knone, none, lane⟩) ∧
    parseSerialLine "TIME:1:05:30" = some ⟨PKind.ktime, some 65300, none⟩ ∧
    parseSerialLine "TIME:1:5" = some ⟨PKind.knone, none, none⟩ := by
  refine ⟨?_, ?_, ?_, by decide, by decide⟩
  · intro mp sp cp mins secs cs hsplit hm hs hc
    unfold parseTimePayload
    rw [hsplit]
    simp only [hm, hs, hc]
    constructor
    · intro hrange
      rw [if_pos hrange]
    · intro hrange
      rw [if_neg hrange]
  · intro hlen
    unfold parseTimePayload
    rcases hsp : pySplitChar ':' payload with _ | ⟨a, _ | ⟨b, _ | ⟨c, _ | ⟨d, tl⟩⟩⟩⟩ <;>
      first
        | rfl
        | (exact absurd (by simp [hsp]) hlen)
  · intro mp sp cp hsplit hnone
    unfold parseTimePayload
    rw [hsplit]
    dsimp only
    rcases hnone with h | h | h <;> rw [h] <;>
      first
        | rfl
        | (cases pyIntChars sp <;> cases pyIntChars cp <;> rfl)
        | (cases pyIntChars mp <;> cases pyIntChars cp <;> rfl)
        | (cases pyIntChars mp <;> cases pyIntChars sp <;> rfl)

/-- Claim C8 witness: the payload `1:05:30` splits into three integer
fields and yields `(1*60+5)*1000 + 30*10 = 65300` ms. -/
theorem C8_timeParse_w :
    parseTimePayload "1:05:30".data none = ⟨PKind.ktime, some 65300, none⟩ := by
  have h := ((C8_timeParse "1:05:30".data none).1 "1".data "05".data "30".data 1 5 30
    (by decide) (by decide) (by decide) (by decide)).1 ⟨by decide, by decide⟩
  exact h.trans (by decide)

theorem pad2_small : ∀ k : Fin 100,
    (pad2 ((k : Nat) : Int)).length = 2 ∧
      (pad2 ((k : Nat) : Int)).all Char.isDigit = true := by decide

theorem pad2_shape (n : Nat) (h : n < 100) :
    ∃ a b : Char, pad2 (n : Int) = [a, b] ∧ a.isDigit = true ∧ b.isDigit = true := by
  obtain ⟨hl, hall⟩ := pad2_small ⟨n, h⟩
  obtain ⟨a, b, hab⟩ := List.length_eq_two.mp hl
  refine ⟨a, b, hab, ?_, ?_⟩
  · have := List.all_eq_true.mp hall a
    rw [hab] at this
    exact this (by simp)
  · have := List.all_eq_true.mp hall b
    rw [hab] at this
    exact this (by simp)

/-- Claim C9 (amended): for non-negative millisecond values below
6 000 000 (one hundred minutes) the formatter produces exactly the
two-digit `mm:ss.cc` shape, with the centisecond field equal to
`(ms % 1000) // 10`; at 100 minutes and beyond the minute field grows
beyond two digits, since the Python width `02` is only a minimum. -/
theorem C9_amended (ms : Int) (h0 : 0 ≤ ms) (hlt : ms < 6000000) :
    twoDigitClockForm (formatTime ms) = true ∧
    (formatTime ms).data.drop 6 = pad2 (Int.fdiv (Int.fmod ms 1000) 10) := by
  lift ms to Nat using h0 with m
  have hm : m < 6000000 := by exact_mod_cast hlt
  have hseconds : Int.fdiv (m : Int) 1000 = ((m / 1000 : Nat) : Int) :=
    (Int.ofNat_fdiv m 1000).symm
  have hmins : Int.fdiv ((m / 1000 : Nat) : Int) 60 = ((m / 1000 / 60 : Nat) : Int) :=
    (Int.ofNat_fdiv (m / 1000) 60).symm
  have hsecs : Int.fmod ((m / 1000 : Nat) : Int) 60 = ((m / 1000 % 60 : Nat) : Int) :=
    (Int.ofNat_fmod (m / 1000) 60).symm
  have hrem0 : Int.fmod (m : Int) 1000 = ((m % 1000 : Nat) : Int) :=
    (Int.ofNat_fmod m 1000).symm
  have hrem : Int.fdiv (Int.fmod (m : Int) 1000) 10 = ((m % 1000 / 10 : Nat) : Int) := by
    rw [hrem0]
    exact (Int.ofNat_fdiv (m % 1000) 10).symm
  have hfmt : formatTime (m : Int) =
      String.mk (pad2 ((m / 1000 / 60 : Nat) : Int) ++
        ':' :: (pad2 ((m / 1000 % 60 : Nat) : Int) ++
          '.' :: pad2 ((m % 1000 / 10 : Nat) : Int))) := by
    simp only [formatTime]
    rw [hseconds, hmins, hsecs, hrem]
  obtain ⟨a1, a2, hA, hA1, hA2⟩ := pad2_shape (m / 1000 / 60) (by omega)
  obtain ⟨b1, b2, hB, hB1, hB2⟩ := pad2_shape (m / 1000 % 60) (by omega)
  obtain ⟨c1, c2, hC, hC1, hC2⟩ := pad2_shape (m % 1000 / 10) (by omega)
  constructor
  · rw [hfmt, hA, hB, hC]
    simp [twoDigitClockForm, hA1, hA2, hB1, hB2, hC1, hC2]
  · rw [hfmt, hA, hB, hrem]
    simp

/-- Claim C9 witness: the amended statement at 65 300 ms, which displays
as `01:05.30`. -/
theorem C9_amended_w :
    twoDigitClockForm (formatTime 65300) = true ∧
    (formatTime 65300).data.drop 6 = pad2 (Int.fdiv (Int.fmod 65300 1000) 10) := by
  exact C9_amended 65300 (by decide) (by decide)

end TimerApp
